import Mathlib

/-!
Verification development for the HIV network-simulation repository
(`src/visuals.py`, `src/best_prep_plots.py`).

The GUI/exporter layer (`visuals.py`) is embedded directly from the source.
The simulation core `network_model.py` (class `NetworkModel`) is imported by
`visuals.py` but is not part of the source tree, so it is modelled from the
specification; every such definition carries a doc comment starting with
`Modelled from the spec:`.  Machine floats are represented by exact
rationals, Python dicts by association lists, Python exceptions by
`Option`/`Except`-style results, and the seeded random sources by oracle
families (functions of the seed).
-/

namespace HIVSim

/-- Modelled from the spec: the five disease stages of a node
(`susceptible -> acute -> chronic -> aids -> dead`). -/
inductive HState where
  | susceptible
  | acute
  | chronic
  | aids
  | dead
deriving DecidableEq, Repr

/-- Modelled from the spec: a node's mutable epidemic attributes
(`state`, `time_in_state`, `prep_covered`); `network_model.py` is absent
from `src/`.  Demographic attributes play no role in the claims below. -/
structure Person where
  state : HState
  time_in_state : Nat
  prep_covered : Bool
deriving DecidableEq, Repr

/-- Modelled from the spec: the tunable stage parameters (per-stage
transmission probabilities, PrEP efficacy, dwell times). -/
structure Params where
  pTransAcute : Rat
  pTransChronic : Rat
  pTransAids : Rat
  prepEfficacy : Rat
  acuteDwell : Nat
  chronicDwell : Nat
  aidsDwell : Nat

/-- Modelled from the spec: per-stage transmission probability; susceptible
and dead nodes transmit nothing. -/
def infectiousness (par : Params) : HState → Rat
  | HState.acute => par.pTransAcute
  | HState.chronic => par.pTransChronic
  | HState.aids => par.pTransAids
  | _ => 0

/-- Modelled from the spec: the seeded random sources of `network_model.py`,
abstracted as oracle families.  `adjOf` is the topology (determined by the
network seed and node count only), `drawsOf` the per-step uniform draws of
the interaction source (time, node, neighbor), `initAcuteOf` the initial
outbreak sample, `coveredOf` the PrEP coverage sample for a mode and
coverage fraction. -/
structure Oracles where
  adjOf : Int → Nat → Nat → List Nat
  drawsOf : Option Int → Nat → Nat → Nat → Rat
  initAcuteOf : Option Int → Rat → Nat → Bool
  coveredOf : String → Rat → Nat → Bool
  par : Params

/-- Modelled from the spec: one run controller — the constructor arguments
of `NetworkModel` as recorded fields plus the dynamic simulation state
(`people`, `time`, `states_per_time`). -/
structure NetworkModel where
  seed : Option Int
  network_seed : Int
  num_nodes : Nat
  initial_outbreak_proportion : Rat
  mode : String
  prep_amount : Rat
  adj : Nat → List Nat
  draws : Nat → Nat → Nat → Rat
  par : Params
  people : List Person
  time : Nat
  states_per_time : List (List (String × Nat))

/-- The five state keys, in the order used throughout `visuals.py`
(`KEYS = ["susceptible", "acute", "chronic", "aids", "dead"]`). -/
def KEYS : List String := ["susceptible", "acute", "chronic", "aids", "dead"]

/-- Modelled from the spec: a snapshot is a mapping from state name to the
count of nodes currently in that state. -/
def countSnapshot (ps : List Person) : List (String × Nat) :=
  [("susceptible", ps.countP (fun p => p.state == HState.susceptible)),
   ("acute", ps.countP (fun p => p.state == HState.acute)),
   ("chronic", ps.countP (fun p => p.state == HState.chronic)),
   ("aids", ps.countP (fun p => p.state == HState.aids)),
   ("dead", ps.countP (fun p => p.state == HState.dead))]

/-- Modelled from the spec: construction of a run.  The initial outbreak
marks the sampled nodes Acute, PrEP coverage is assigned once, and the
week-0 snapshot is recorded immediately. -/
def NetworkModel.init (o : Oracles) (seed : Option Int) (network_seed : Int)
    (num_nodes : Nat) (initial_outbreak_proportion : Rat) (mode : String)
    (prep_amount : Rat) : NetworkModel :=
  let people := (List.range num_nodes).map (fun i =>
    { state := if o.initAcuteOf seed initial_outbreak_proportion i then
                 HState.acute
               else
                 HState.susceptible
      time_in_state := 0
      prep_covered := o.coveredOf mode prep_amount i })
  { seed := seed
    network_seed := network_seed
    num_nodes := num_nodes
    initial_outbreak_proportion := initial_outbreak_proportion
    mode := mode
    prep_amount := prep_amount
    adj := o.adjOf network_seed num_nodes
    draws := o.drawsOf seed
    par := o.par
    people := people
    time := 0
    states_per_time := [countSnapshot people] }

/-- Modelled from the spec: the per-node transition of the epidemic process,
computed from the previous snapshot.  A susceptible node becomes acute if
any independent per-neighbor Bernoulli draw succeeds (PrEP multiplies the
probability by `1 - prep_efficacy`); infected stages progress after their
dwell time; dead is absorbing; `time_in_state` resets on transition and
increments otherwise. -/
def personTransition (m : NetworkModel) (i : Nat) (p : Person) : Person :=
  match p.state with
  | HState.susceptible =>
      let risk := fun j =>
        let q := infectiousness m.par
          ((m.people.getD j { state := HState.dead, time_in_state := 0,
                              prep_covered := false }).state)
        let q2 := if p.prep_covered then q * (1 - m.par.prepEfficacy) else q
        decide (m.draws m.time i j < q2)
      if (m.adj i).any risk then
        { state := HState.acute, time_in_state := 0,
          prep_covered := p.prep_covered }
      else
        { p with time_in_state := p.time_in_state + 1 }
  | HState.acute =>
      if m.par.acuteDwell ≤ p.time_in_state + 1 then
        { p with state := HState.chronic, time_in_state := 0 }
      else
        { p with time_in_state := p.time_in_state + 1 }
  | HState.chronic =>
      if m.par.chronicDwell ≤ p.time_in_state + 1 then
        { p with state := HState.aids, time_in_state := 0 }
      else
        { p with time_in_state := p.time_in_state + 1 }
  | HState.aids =>
      if m.par.aidsDwell ≤ p.time_in_state + 1 then
        { p with state := HState.dead, time_in_state := 0 }
      else
        { p with time_in_state := p.time_in_state + 1 }
  | HState.dead => p

/-- Modelled from the spec: `step()` advances time by one week, applies the
epidemic process to every node atomically, and appends exactly one new
snapshot to `states_per_time`. -/
def NetworkModel.step (m : NetworkModel) : NetworkModel :=
  let newPeople := m.people.mapIdx (fun i p => personTransition m i p)
  { m with people := newPeople
           time := m.time + 1
           states_per_time := m.states_per_time ++ [countSnapshot newPeople] }

/-- Iterated stepping of one run. -/
def NetworkModel.stepN (m : NetworkModel) : Nat → NetworkModel
  | 0 => m
  | n + 1 => (m.stepN n).step

/-!  Embedding of `visuals.py` (the source under `src/`). -/

/-- The current GUI input values (`num_nodes_input`, `seed_input`,
`use_seed_var`, `network_seed_input`, `max_t_input`, `iterations_input`,
`steps_per_update_input`, `prep_amount_input`, `initial_outbreak_prop_input`,
`mode_var`, `delay_input` of `visuals.py`). -/
structure Settings where
  num_nodes : Nat
  delay : Nat
  initial_outbreak_proportion : Rat
  seed : Int
  use_seed : Bool
  network_seed : Int
  max_t : Nat
  iterations : Nat
  steps_per_update : Nat
  prep_amount : Rat
  mode : String

/-- The defaults installed by the `add_variable_block` calls of
`visuals.py`; `reset_model` restores these (and clears `use_seed_var`)
while leaving `mode_var` untouched. -/
def defaultSettings (mode : String) : Settings :=
  { num_nodes := 1000
    delay := 50
    initial_outbreak_proportion := 11 / 100
    seed := 42
    use_seed := false
    network_seed := 67
    max_t := 520
    iterations := 3
    steps_per_update := 10
    prep_amount := 1 / 10
    mode := mode }

/-- `create_models` of `visuals.py`: k = iterations models, every one
constructed with the same `network_seed`, and with interaction seed
`seed + i` when the use-seed checkbox is set and `None` otherwise. -/
def create_models (o : Oracles) (st : Settings) : List NetworkModel :=
  (List.range st.iterations).map (fun (i : Nat) =>
    NetworkModel.init o
      (if st.use_seed then some (st.seed + (i : Int)) else none)
      st.network_seed st.num_nodes st.initial_outbreak_proportion
      st.mode st.prep_amount)

/-- The mutable session state of `visuals.py`: the global week counter `t`,
the current ensemble `models`, and the animation flag `running`. -/
structure Sim where
  t : Nat
  models : List NetworkModel
  running : Bool

/-- One lock-step sweep: `for m in models: m.step()`. -/
def stepAll (ms : List NetworkModel) : List NetworkModel :=
  ms.map NetworkModel.step

/-- `step_once` of `visuals.py`: return immediately when `t >= max_t`,
otherwise step every model once and increment `t`. -/
def step_once (max_t : Nat) (s : Sim) : Sim :=
  if max_t ≤ s.t then s
  else { s with t := s.t + 1, models := stepAll s.models }

/-- The `for _ in range(steps)` loop of `tick`: each iteration steps every
model, increments `t`, and then re-reads the `running` flag (the oracle
`flags k` gives the value observed at the k-th boundary check), breaking
out of the loop when it has been cleared. -/
def tickLoop (flags : Nat → Bool) : Nat → Nat → Sim → Sim
  | 0, _, s => s
  | steps + 1, k, s =>
      let s2 : Sim := { t := s.t + 1, models := stepAll s.models,
                        running := flags k }
      if s2.running then tickLoop flags steps (k + 1) s2 else s2

/-- `tick` of `visuals.py`: no-op when not running or `t >= max_t`;
otherwise run `min(max(1, steps_per_update), max_t - t)` lock-step
iterations. -/
def tick (flags : Nat → Bool) (max_t steps_per_update : Nat) (s : Sim) :
    Sim :=
  if ¬ s.running ∨ max_t ≤ s.t then s
  else tickLoop flags (min (max 1 steps_per_update) (max_t - s.t)) 0 s

/-- `apply_settings` of `visuals.py`: stop the animation, reset `t` to 0 and
rebuild the ensemble from the current settings. -/
def apply_settings (o : Oracles) (st : Settings) (_s : Sim) : Sim :=
  { t := 0, models := create_models o st, running := false }

/-- `reset_model` of `visuals.py`: restore the default settings (keeping the
mode), reset `t`, and rebuild the ensemble. -/
def reset_model (o : Oracles) (mode : String) (s : Sim) : Sim :=
  apply_settings o (defaultSettings mode) s

/-!  The CSV exporter `export_csv_raw_runs` of `visuals.py`. -/

/-- Python's `int()` truncation toward zero on a (here exactly represented)
float; used for `prep_pct = int(prep * 100)`. -/
def pyInt (q : Rat) : Int :=
  if q < 0 then -Int.floor (-q) else Int.floor q

/-- Python's `dict.get(k, default)` on a snapshot. -/
def dictGet (d : List (String × Nat)) (k : String) (dflt : Nat) : Nat :=
  match d.find? (fun kv => kv.1 == k) with
  | some kv => kv.2
  | none => dflt

/-- The f-string filename of `export_csv_raw_runs`:
`{mode}_prep{prep_pct}_weeks{max_week}_nodes{nodes}_netseed{net_seed}_iters{iters}_RAW__{timestamp}.csv`. -/
def csvFilename (mode : String) (prep : Rat) (max_week : Nat)
    (nodes net_seed iters : Int) (timestamp : String) : String :=
  mode ++ "_prep" ++ toString (pyInt (prep * 100)) ++
  "_weeks" ++ toString max_week ++
  "_nodes" ++ toString nodes ++
  "_netseed" ++ toString net_seed ++
  "_iters" ++ toString iters ++
  "_RAW__" ++ timestamp ++ ".csv"

/-- The part of `csvFilename` before the timestamp. -/
def csvStem (mode : String) (prep : Rat) (max_week : Nat)
    (nodes net_seed iters : Int) : String :=
  mode ++ "_prep" ++ toString (pyInt (prep * 100)) ++
  "_weeks" ++ toString max_week ++
  "_nodes" ++ toString nodes ++
  "_netseed" ++ toString net_seed ++
  "_iters" ++ toString iters ++
  "_RAW__"

/-- The CSV header of `export_csv_raw_runs`:
`["week", "mode", "prep"]` then `f"{k}_{run_idx+1}"` for every run index and
every key. -/
def csvHeader (num_runs : Nat) : List String :=
  ["week", "mode", "prep"] ++
    ((List.range num_runs).map (fun run_idx =>
      KEYS.map (fun k => k ++ "_" ++ toString (run_idx + 1)))).flatten

/-- Collect a list of results, failing (a raised Python exception) as soon
as one entry fails. -/
def seqOpt {α : Type} : List (Option α) → Option (List α)
  | [] => some []
  | none :: _ => none
  | some a :: rest => (seqOpt rest).map (fun l => a :: l)

/-- The per-run cells of one data row: when `week < len(r)` read the (index
may in principle fail, hence `Option`) snapshot `r[week]`, otherwise use the
all-zero dict `{k: 0 for k in KEYS}`; then `d.get(k, 0)` for every key. -/
def runCells (r : List (List (String × Nat))) (week : Nat) :
    Option (List Nat) :=
  if week < r.length then
    (r.get? week).map (fun d => KEYS.map (fun k => dictGet d k 0))
  else
    some (KEYS.map (fun k => dictGet (KEYS.map (fun k2 => (k2, 0))) k 0))

/-- One data row of the exported CSV: the week number, the mode string, the
prep fraction, then each run's five state counts in run order. -/
structure CsvRow where
  week : Nat
  mode : String
  prep : Rat
  counts : List Nat
deriving DecidableEq, Repr

/-- The data row `export_csv_raw_runs` writes for one week. -/
def exportRow (runs : List (List (List (String × Nat)))) (mode : String)
    (prep : Rat) (week : Nat) : Option CsvRow :=
  (seqOpt (runs.map (fun r => runCells r week))).map
    (fun css => { week := week, mode := mode, prep := prep,
                  counts := css.flatten })

/-- All data rows of `export_csv_raw_runs`: `for week in range(T)` with
`T = max_week + 1` and `max_week = t`. -/
def exportRows (runs : List (List (List (String × Nat)))) (mode : String)
    (prep : Rat) (t : Nat) : Option (List CsvRow) :=
  seqOpt ((List.range (t + 1)).map (fun week => exportRow runs mode prep week))

/-!  The batch exporter `batch_export` of `visuals.py`. -/

/-- The hardcoded PrEP levels of `batch_export`. -/
def batchPrepValues : List Rat :=
  [1/10, 2/10, 3/10, 4/10, 5/10, 6/10, 7/10, 8/10, 9/10, 1]

/-- The hardcoded (uncommented) target modes of `batch_export`. -/
def batchModes : List String := ["standard"]

/-- The hardcoded batch settings of `batch_export`. -/
def batchMaxT : Nat := 520

/-- Batch iteration count. -/
def batchIterations : Nat := 50

/-- Batch node count. -/
def batchNumNodes : Nat := 1000

/-- Batch network seed. -/
def batchNetworkSeed : Int := 67

/-- The jobs of one batch run: every mode paired with every PrEP level, in
loop order. -/
def batchJobs : List (String × Rat) :=
  batchModes.flatMap (fun m => batchPrepValues.map (fun p => (m, p)))

/-- The filename `export_csv_raw_runs` computes inside a batch job: at
export time `t = max_t` and the inputs hold the batch settings. -/
def batchFname (job : String × Rat) (timestamp : String) : String :=
  csvFilename job.1 job.2 batchMaxT (batchNumNodes : Int) batchNetworkSeed
    (batchIterations : Int) timestamp

/-- The `while t < max_t` loop of a batch job: step every model and
increment `t` until the ceiling is reached. -/
def runWeeks (max_t : Nat) (s : Sim) : Sim :=
  if s.t < max_t then
    runWeeks max_t { s with t := s.t + 1, models := stepAll s.models }
  else s
termination_by max_t - s.t
decreasing_by simp_wf; omega

/-- The body of one successful batch job: reset `t` to 0, rebuild the
ensemble from the job's settings, then run to the week ceiling (the CSV
export itself only reads the state). -/
def batchJob (o : Oracles) (st : Settings) (s : Sim) : Sim :=
  runWeeks st.max_t
    { t := 0, models := create_models o st, running := s.running }

/-- `batch_export` of `visuals.py`: clear `running`, install the batch
settings, then run every (mode, prep) job in order.  Each job sets `t = 0`
before its `try` block; `raises` tells for which job settings the (absent
from `src/`, hence unmodelled) `NetworkModel` constructor inside
`create_models` raises a `ValueError`.  Such a `ValueError` is caught by
the `except` branch: the job is skipped with `t` left at 0 and `models`
still holding the previous ensemble, and the loop continues with the next
job; on success the job rebuilds the ensemble and runs it to the week
ceiling (the CSV export itself only reads the state). -/
def batch_export (o : Oracles) (raises : Settings → Bool) (st : Settings)
    (s : Sim) : Sim :=
  batchJobs.foldl
    (fun acc job =>
      let stj : Settings :=
        { st with max_t := batchMaxT, iterations := batchIterations,
                  num_nodes := batchNumNodes, network_seed := batchNetworkSeed,
                  mode := job.1, prep_amount := job.2 }
      if raises stj then { acc with t := 0 } else batchJob o stj acc)
    { s with running := false }

/-- A Python exception raised inside a batch job: `batch_export` catches
`ValueError` (the type raised by misconfigured numeric input) and lets
every other exception propagate. -/
inductive PyExn where
  | valueError (msg : String)
  | other (msg : String)
deriving DecidableEq, Repr

/-- The `for prep_val in prep_values` try/except control flow of
`batch_export`, with the job body abstracted as `act` (it returns the
post-state and, possibly, a raised exception; `t` is reset to 0 before the
`try`).  A `ValueError` is caught: the job is logged as skipped and the
loop continues; any other exception aborts the whole batch (`none`).  The
returned log records each processed job and whether it exported. -/
def processJobs (act : String → Rat → Sim → Sim × Option PyExn) :
    List (String × Rat) → Sim → Option (Sim × List (String × Rat × Bool))
  | [], s => some (s, [])
  | (m, p) :: rest, s =>
      let r := act m p { s with t := 0 }
      match r.2 with
      | none =>
          (processJobs act rest r.1).map
            (fun pr => (pr.1, (m, p, true) :: pr.2))
      | some (PyExn.valueError _) =>
          (processJobs act rest r.1).map
            (fun pr => (pr.1, (m, p, false) :: pr.2))
      | some (PyExn.other _) => none

/-!  The statistics plotting `plot_states` of `visuals.py`, with numpy's
`median` and `quantile` (default linear interpolation) modelled on exact
rationals. -/

/-- `np.quantile(v, q)` with the default linear interpolation: on the
sorted copy of the values, interpolate between the entries at positions
`floor(h)` and `floor(h) + 1` (clamped to the last entry) for
`h = q * (n - 1)`. -/
def npQuantile (q : Rat) (xs : List Rat) : Rat :=
  (xs.mergeSort (fun a b => decide (a ≤ b))).getD
      (Int.floor (q * ((xs.length : Rat) - 1))).toNat 0
  + (q * ((xs.length : Rat) - 1)
      - ((Int.floor (q * ((xs.length : Rat) - 1)) : Int) : Rat))
    * ((xs.mergeSort (fun a b => decide (a ≤ b))).getD
          (min ((Int.floor (q * ((xs.length : Rat) - 1))).toNat + 1)
            (xs.length - 1)) 0
      - (xs.mergeSort (fun a b => decide (a ≤ b))).getD
          (Int.floor (q * ((xs.length : Rat) - 1))).toNat 0)

/-- `np.median(v)`: the middle sorted value for odd length, the average of
the two middle sorted values for even length. -/
def npMedian (xs : List Rat) : Rat :=
  if xs.length % 2 = 1 then
    (xs.mergeSort (fun a b => decide (a ≤ b))).getD ((xs.length - 1) / 2) 0
  else
    ((xs.mergeSort (fun a b => decide (a ≤ b))).getD (xs.length / 2 - 1) 0
      + (xs.mergeSort (fun a b => decide (a ≤ b))).getD (xs.length / 2) 0) / 2

/-- `T = min(len(r) for r in runs)` in `plot_states`. -/
def minLen (runs : List (List (List (String × Nat)))) : Nat :=
  ((runs.map List.length).min?).getD 0

/-- Python's `d[key]` on a snapshot: `some` count, or `none` for a raised
`KeyError`. -/
def dictFind (d : List (String × Nat)) (k : String) : Option Nat :=
  (d.find? (fun kv => kv.1 == k)).map (fun kv => kv.2)

/-- The `vals` array of `plot_states`: `vals[run][t] = float(r[t][key])`
for `t` up to the common length `T`. -/
def colValsOpt (runs : List (List (List (String × Nat)))) (key : String) :
    Option (List (List Rat)) :=
  seqOpt (runs.map (fun r =>
    seqOpt ((List.range (minLen runs)).map (fun w =>
      (dictFind (r.getD w []) key).map (fun v => (v : Rat))))))

/-- One axis-0 column of the `vals` array: every run's value at week `w`. -/
def colAt (vals : List (List Rat)) (w : Nat) : List Rat :=
  vals.map (fun row => row.getD w 0)

/-- What `plot_states` draws for one key: the `np.median` line and the
`np.quantile` 0.25 / 0.75 band, per timestep. -/
def plotKey (runs : List (List (List (String × Nat)))) (key : String) :
    Option (List Rat × List Rat × List Rat) :=
  (colValsOpt runs key).map (fun vals =>
    ((List.range (minLen runs)).map (fun w => npMedian (colAt vals w)),
     (List.range (minLen runs)).map (fun w => npQuantile (1/4) (colAt vals w)),
     (List.range (minLen runs)).map (fun w => npQuantile (3/4) (colAt vals w))))

/-!  Helper lemmas. -/

/-- A snapshot is well formed for a population of `N` nodes when it has
exactly the five keys, in order, and its counts sum to `N`. -/
abbrev GoodSnap (N : Nat) (d : List (String × Nat)) : Prop :=
  d.map Prod.fst = KEYS ∧ (d.map Prod.snd).sum = N

theorem countSnapshot_keys (ps : List Person) :
    (countSnapshot ps).map Prod.fst = KEYS := rfl

theorem countSnapshot_sum (ps : List Person) :
    ((countSnapshot ps).map Prod.snd).sum = ps.length := by
  induction ps with
  | nil => rfl
  | cons p rest ih =>
      simp only [countSnapshot, List.countP_cons, List.map_cons, List.map_nil,
        List.sum_cons, List.sum_nil, List.length_cons] at *
      cases hp : p.state <;> simp [hp] <;> omega

theorem countSnapshot_good (ps : List Person) :
    GoodSnap ps.length (countSnapshot ps) :=
  ⟨countSnapshot_keys ps, countSnapshot_sum ps⟩

theorem init_people_length (o : Oracles) (seed : Option Int)
    (network_seed : Int) (num_nodes : Nat) (prop : Rat) (mode : String)
    (prep : Rat) :
    (NetworkModel.init o seed network_seed num_nodes prop mode prep).people.length
      = num_nodes := by
  simp [NetworkModel.init]

theorem step_people_length (m : NetworkModel) :
    m.step.people.length = m.people.length := by
  simp [NetworkModel.step]

theorem step_spt (m : NetworkModel) :
    m.step.states_per_time
      = m.states_per_time ++ [countSnapshot m.step.people] := by
  simp [NetworkModel.step]

theorem seqOpt_length {α : Type} :
    ∀ (l : List (Option α)) (out : List α), seqOpt l = some out →
      out.length = l.length := by
  intro l
  induction l with
  | nil => intro out h; simp [seqOpt] at h; simp [← h]
  | cons hd tl ih =>
      intro out h
      cases hd with
      | none => simp [seqOpt] at h
      | some a =>
          simp only [seqOpt, Option.map_eq_some'] at h
          obtain ⟨l2, h2, rfl⟩ := h
          simp [ih l2 h2]

theorem seqOpt_getD {α : Type} (dflt : α) :
    ∀ (l : List (Option α)) (out : List α), seqOpt l = some out →
      ∀ j, j < l.length → l.getD j none = some (out.getD j dflt) := by
  intro l
  induction l with
  | nil => intro out _ j hj; simp at hj
  | cons hd tl ih =>
      intro out h j hj
      cases hd with
      | none => simp [seqOpt] at h
      | some a =>
          simp only [seqOpt, Option.map_eq_some'] at h
          obtain ⟨l2, h2, rfl⟩ := h
          cases j with
          | zero => simp
          | succ j2 =>
              simp only [List.getD_cons_succ]
              exact ih l2 h2 j2 (by simpa using hj)

theorem seqOpt_isSome {α : Type} :
    ∀ (l : List (Option α)), (∀ x ∈ l, x.isSome) → (seqOpt l).isSome := by
  intro l
  induction l with
  | nil => intro _; simp [seqOpt]
  | cons hd tl ih =>
      intro h
      cases hd with
      | none => simpa using h none (by simp)
      | some a =>
          simp only [seqOpt]
          have := ih (fun x hx => h x (by simp [hx]))
          obtain ⟨l2, h2⟩ := Option.isSome_iff_exists.mp this
          simp [h2]

theorem runCells_isSome (r : List (List (String × Nat))) (week : Nat) :
    (runCells r week).isSome := by
  unfold runCells
  split
  · rename_i h
    rw [List.get?_eq_getElem?, List.getElem?_eq_getElem h]
    simp
  · simp

theorem runCells_length (r : List (List (String × Nat))) (week : Nat)
    (cs : List Nat) (h : runCells r week = some cs) : cs.length = 5 := by
  unfold runCells at h
  split at h
  · rename_i hw
    rw [List.get?_eq_getElem?, List.getElem?_eq_getElem hw] at h
    simp only [Option.map_some'] at h
    cases h
    simp [KEYS]
  · cases h
    simp [KEYS]

theorem goodSnap_cells (d : List (String × Nat))
    (h : d.map Prod.fst = KEYS) :
    KEYS.map (fun k => dictGet d k 0) = d.map Prod.snd := by
  have hlen : d.length = 5 := by
    have h2 := congrArg List.length h
    simpa [KEYS] using h2
  rcases d with _ | ⟨⟨k1, v1⟩, _ | ⟨⟨k2, v2⟩, _ | ⟨⟨k3, v3⟩, _ | ⟨⟨k4, v4⟩,
    _ | ⟨⟨k5, v5⟩, tail⟩⟩⟩⟩⟩ <;> simp only [List.length_cons, List.length_nil] at hlen <;>
    try omega
  have htail : tail = [] := by
    cases tail with
    | nil => rfl
    | cons a b => simp at hlen
  subst htail
  simp only [KEYS, List.map_cons, List.map_nil, List.cons.injEq,
    and_true] at h
  obtain ⟨rfl, rfl, rfl, rfl, rfl⟩ := h
  rfl

theorem goodSnap_cells_sum (N : Nat) (d : List (String × Nat))
    (h : GoodSnap N d) :
    (KEYS.map (fun k => dictGet d k 0)).sum = N := by
  rw [goodSnap_cells d h.1]
  exact h.2

theorem stepN_invariant (o : Oracles) (seed : Option Int) (nseed : Int)
    (N : Nat) (prop : Rat) (mode : String) (prep : Rat) (n : Nat) :
    ((NetworkModel.init o seed nseed N prop mode prep).stepN n).people.length = N
    ∧ ∀ d ∈ ((NetworkModel.init o seed nseed N prop mode prep).stepN n).states_per_time,
        GoodSnap N d := by
  induction n with
  | zero =>
      refine ⟨init_people_length o seed nseed N prop mode prep, ?_⟩
      intro d hd
      simp only [NetworkModel.stepN, NetworkModel.init, List.mem_singleton] at hd
      subst hd
      have h := countSnapshot_good
        ((List.range N).map (fun i =>
          { state := if o.initAcuteOf seed prop i then HState.acute
                     else HState.susceptible
            time_in_state := 0
            prep_covered := o.coveredOf mode prep i }))
      simpa using h
  | succ n ih =>
      have hlen : ((NetworkModel.init o seed nseed N prop mode prep).stepN
          (n + 1)).people.length = N := by
        show ((NetworkModel.init o seed nseed N prop mode prep).stepN n).step.people.length = N
        rw [step_people_length]
        exact ih.1
      refine ⟨hlen, ?_⟩
      intro d hd
      have hspt := step_spt ((NetworkModel.init o seed nseed N prop mode prep).stepN n)
      have hd2 : d ∈ ((NetworkModel.init o seed nseed N prop mode
          prep).stepN n).step.states_per_time := hd
      rw [hspt, List.mem_append] at hd2
      rcases hd2 with hd | hd
      · exact ih.2 d hd
      · rw [List.mem_singleton] at hd
        subst hd
        have h := countSnapshot_good
          ((NetworkModel.init o seed nseed N prop mode prep).stepN n).step.people
        rwa [step_people_length, ih.1] at h

theorem runCells_good (N : Nat) (r : List (List (String × Nat))) (week : Nat)
    (hweek : week < r.length) (hgood : ∀ d ∈ r, GoodSnap N d) :
    ∃ cs, runCells r week = some cs ∧ cs.sum = N := by
  unfold runCells
  rw [if_pos hweek, List.get?_eq_getElem?, List.getElem?_eq_getElem hweek]
  exact ⟨_, rfl, goodSnap_cells_sum N _ (hgood _ (List.getElem_mem hweek))⟩

/-!  Claim theorems. -/

/-- C1: for every run reachable from construction, every recorded snapshot
in `states_per_time` is a mapping with exactly the five keys `susceptible,
acute, chronic, aids, dead` whose counts sum to `num_nodes`; consequently,
for runs whose histories are such snapshots and cover weeks 0..t, the
per-run state cells of every data row that `export_csv_raw_runs` writes for
a week 0..t sum to `num_nodes`. -/
theorem c1_population_conservation
    (o : Oracles) (seed : Option Int) (nseed : Int) (N : Nat) (prop : Rat)
    (mode : String) (prep : Rat) (n : Nat)
    (runs : List (List (List (String × Nat)))) (t week : Nat)
    (r : List (List (String × Nat)))
    (hgood : ∀ r2 ∈ runs, (∀ d ∈ r2, GoodSnap N d) ∧ t < r2.length)
    (hweek : week ≤ t) (hr : r ∈ runs) :
    (∀ d ∈ ((NetworkModel.init o seed nseed N prop mode prep).stepN n).states_per_time,
        d.map Prod.fst = KEYS ∧ (d.map Prod.snd).sum = N)
    ∧ ∃ cs, runCells r week = some cs ∧ cs.sum = N := by
  refine ⟨(stepN_invariant o seed nseed N prop mode prep n).2, ?_⟩
  obtain ⟨hg, hlen⟩ := hgood r hr
  exact runCells_good N r week (lt_of_le_of_lt hweek hlen) hg

/-- A concrete oracle family used by the witnesses. -/
def oracle0 : Oracles :=
  { adjOf := fun _ n i => if i + 1 < n then [i + 1] else []
    drawsOf := fun _ _ _ _ => 1 / 2
    initAcuteOf := fun _ _ i => decide (i = 0)
    coveredOf := fun _ _ _ => false
    par := { pTransAcute := 9 / 10, pTransChronic := 1 / 2,
             pTransAids := 3 / 5, prepEfficacy := 9 / 10,
             acuteDwell := 2, chronicDwell := 3, aidsDwell := 2 } }

/-- A concrete three-week run history used by the witnesses. -/
def run0 : List (List (String × Nat)) :=
  [[("susceptible", 2), ("acute", 1), ("chronic", 0), ("aids", 0), ("dead", 0)],
   [("susceptible", 1), ("acute", 1), ("chronic", 1), ("aids", 0), ("dead", 0)],
   [("susceptible", 1), ("acute", 0), ("chronic", 1), ("aids", 1), ("dead", 0)]]

theorem exportRow_isSome (runs : List (List (List (String × Nat))))
    (mode : String) (prep : Rat) (week : Nat) :
    (exportRow runs mode prep week).isSome := by
  unfold exportRow
  have h := seqOpt_isSome (runs.map (fun r => runCells r week)) ?_
  · obtain ⟨v, hv⟩ := Option.isSome_iff_exists.mp h
    simp [hv]
  · intro x hx
    obtain ⟨r, -, rfl⟩ := List.mem_map.mp hx
    exact runCells_isSome r week

theorem exportRows_isSome (runs : List (List (List (String × Nat))))
    (mode : String) (prep : Rat) (t : Nat) :
    (exportRows runs mode prep t).isSome := by
  unfold exportRows
  apply seqOpt_isSome
  intro x hx
  obtain ⟨week, -, rfl⟩ := List.mem_map.mp hx
  exact exportRow_isSome runs mode prep week

/-- C9: `export_csv_raw_runs` is total over its inputs: the rows for weeks
0..t always exist (`isSome`, no exception); a week at or beyond a run's
recorded history yields the all-zero cells; and a state key missing from a
snapshot yields a 0 cell. -/
theorem c9_export_total (runs : List (List (List (String × Nat))))
    (mode : String) (prep : Rat) (t : Nat)
    (r : List (List (String × Nat))) (week : Nat)
    (d : List (String × Nat)) (k : String)
    (hshort : r.length ≤ week)
    (hmiss : d.find? (fun kv => kv.1 == k) = none) :
    (exportRows runs mode prep t).isSome
    ∧ runCells r week = some (KEYS.map (fun _ => 0))
    ∧ dictGet d k 0 = 0 := by
  refine ⟨exportRows_isSome runs mode prep t, ?_, ?_⟩
  · unfold runCells
    rw [if_neg (by omega)]
    rfl
  · unfold dictGet
    rw [hmiss]

theorem c9_export_total_witness :
    run0.length ≤ 5
    ∧ List.find? (fun kv => kv.1 == "susceptible") [("acute", 3)] = none
    ∧ ((exportRows [run0] "standard" (1/10) 5).isSome
        ∧ runCells run0 5 = some (KEYS.map (fun _ => 0))
        ∧ dictGet [("acute", 3)] "susceptible" 0 = 0) :=
  ⟨by decide, by decide,
   c9_export_total [run0] "standard" (1/10) 5 run0 5 [("acute", 3)]
     "susceptible" (by decide) (by decide)⟩

theorem c1_population_conservation_witness :
    (∀ r2 ∈ [run0], (∀ d ∈ r2, GoodSnap 3 d) ∧ 2 < r2.length)
    ∧ 2 ≤ 2 ∧ run0 ∈ [run0]
    ∧ ((∀ d ∈ ((NetworkModel.init oracle0 none 67 3 (11/100) "standard"
          0).stepN 0).states_per_time,
            d.map Prod.fst = KEYS ∧ (d.map Prod.snd).sum = 3)
        ∧ ∃ cs, runCells run0 2 = some cs ∧ cs.sum = 3) :=
  ⟨by decide, by decide, by decide,
   c1_population_conservation oracle0 none 67 3 (11/100) "standard" 0 0
     [run0] 2 2 run0 (by decide) (by decide) (by decide)⟩

theorem flatten_take_chunk {α : Type} (c : Nat) :
    ∀ (ls : List (List α)) (j : Nat), (∀ l ∈ ls, l.length = c) →
      j < ls.length → (ls.flatten.drop (c * j)).take c = ls.getD j [] := by
  intro ls
  induction ls with
  | nil => intro j _ hj; simp at hj
  | cons hd tl ih =>
      intro j hc hj
      have hhd : hd.length = c := hc hd (by simp)
      cases j with
      | zero =>
          simp only [Nat.mul_zero, List.drop_zero, List.flatten_cons,
            List.getD_cons_zero]
          rw [← hhd, List.take_left]
      | succ j2 =>
          have hsplit : c * (j2 + 1) = hd.length + c * j2 := by
            rw [hhd]; ring
          rw [List.flatten_cons, hsplit, List.drop_append,
            List.getD_cons_succ]
          exact ih j2 (fun l hl => hc l (by simp [hl])) (by simpa using hj)

theorem flatten_getD_chunk {α : Type} (c : Nat) (d : α) :
    ∀ (ls : List (List α)) (j sk : Nat), (∀ l ∈ ls, l.length = c) →
      j < ls.length → sk < c →
      ls.flatten.getD (c * j + sk) d = (ls.getD j []).getD sk d := by
  intro ls
  induction ls with
  | nil => intro j sk _ hj _; simp at hj
  | cons hd tl ih =>
      intro j sk hc hj hsk
      have hhd : hd.length = c := hc hd (by simp)
      cases j with
      | zero =>
          simp only [Nat.mul_zero, Nat.zero_add, List.flatten_cons,
            List.getD_cons_zero]
          exact List.getD_append hd tl.flatten d sk (by omega)
      | succ j2 =>
          have hle : hd.length ≤ c * (j2 + 1) + sk := by
            rw [hhd]; nlinarith
          rw [List.flatten_cons, List.getD_append_right hd tl.flatten d _ hle,
            List.getD_cons_succ]
          have harith : c * (j2 + 1) + sk - hd.length = c * j2 + sk := by
            rw [hhd]; ring_nf; omega
          rw [harith]
          exact ih j2 sk (fun l hl => hc l (by simp [hl])) (by simpa using hj)
            hsk

theorem csvHeader_getD (num_runs j sk : Nat) (hj : j < num_runs)
    (hsk : sk < 5) :
    (csvHeader num_runs).getD (3 + (5 * j + sk)) ""
      = KEYS.getD sk "" ++ "_" ++ toString (j + 1) := by
  unfold csvHeader
  rw [show (3 : Nat) + (5 * j + sk)
      = (["week", "mode", "prep"] : List String).length + (5 * j + sk) by rfl]
  rw [List.getD_append_right _ _ _ _ (by simp)]
  simp only [List.length_cons, List.length_nil, Nat.add_sub_cancel_left]
  rw [flatten_getD_chunk 5 "" _ j sk ?_ (by simpa using hj) hsk]
  · have hget : ((List.range num_runs).map (fun run_idx =>
        KEYS.map (fun k => k ++ "_" ++ toString (run_idx + 1)))).getD j []
        = KEYS.map (fun k => k ++ "_" ++ toString (j + 1)) := by
      rw [List.getD_eq_getElem _ _ (by simpa using hj), List.getElem_map]
      simp
    rw [hget, List.getD_eq_getElem _ _ (by simpa [KEYS] using hsk),
      List.getD_eq_getElem _ _ (by simpa [KEYS] using hsk), List.getElem_map]
  · intro l hl
    obtain ⟨i, -, rfl⟩ := List.mem_map.mp hl
    simp [KEYS]

theorem seqOpt_mem {α : Type} :
    ∀ (l : List (Option α)) (out : List α), seqOpt l = some out →
      ∀ y ∈ out, some y ∈ l := by
  intro l
  induction l with
  | nil => intro out h y hy; simp [seqOpt] at h; subst h; simp at hy
  | cons hd tl ih =>
      intro out h y hy
      cases hd with
      | none => simp [seqOpt] at h
      | some a =>
          simp only [seqOpt, Option.map_eq_some'] at h
          obtain ⟨l2, h2, rfl⟩ := h
          rcases List.mem_cons.mp hy with rfl | hy2
          · simp
          · simp [ih l2 h2 y hy2]

/-- C2: the CSV has one data row per week 0..t (so `t + 1` rows, row `i`
carrying week number `i`), a header starting `week, mode, prep` followed,
for each run in order, by the five columns `<state>_<run number>` in the
order of `KEYS`, and each data row carries the mode string, the prep
fraction, and — as its j-th five-cell block — run j's state counts at that
week. -/
theorem c2_csv_layout (runs : List (List (List (String × Nat))))
    (mode : String) (prep : Rat) (t i j sk : Nat)
    (hi : i ≤ t) (hj : j < runs.length) (hsk : sk < 5) :
    ∃ rows, exportRows runs mode prep t = some rows
      ∧ rows.length = t + 1
      ∧ (csvHeader runs.length).take 3 = ["week", "mode", "prep"]
      ∧ (csvHeader runs.length).getD (3 + (5 * j + sk)) ""
          = KEYS.getD sk "" ++ "_" ++ toString (j + 1)
      ∧ (rows.getD i ⟨0, "", 0, []⟩).week = i
      ∧ (rows.getD i ⟨0, "", 0, []⟩).mode = mode
      ∧ (rows.getD i ⟨0, "", 0, []⟩).prep = prep
      ∧ ∃ cs, runCells (runs.getD j []) i = some cs
          ∧ (((rows.getD i ⟨0, "", 0, []⟩).counts.drop (5 * j)).take 5) = cs := by
  obtain ⟨rows, hrows⟩ :=
    Option.isSome_iff_exists.mp (exportRows_isSome runs mode prep t)
  have hlenrows : rows.length = t + 1 := by
    have := seqOpt_length _ rows hrows
    simpa using this
  have hi2 : i < ((List.range (t + 1)).map
      (fun week => exportRow runs mode prep week)).length := by
    simpa using Nat.lt_succ_of_le hi
  have hrow := seqOpt_getD (⟨0, "", 0, []⟩ : CsvRow) _ rows hrows i hi2
  have hmapget : ((List.range (t + 1)).map
      (fun week => exportRow runs mode prep week)).getD i none
      = exportRow runs mode prep i := by
    rw [List.getD_eq_getElem _ _ hi2, List.getElem_map]
    simp
  rw [hmapget] at hrow
  unfold exportRow at hrow
  rw [Option.map_eq_some'] at hrow
  obtain ⟨css, hcss, hrowval⟩ := hrow
  have hcsslen : css.length = runs.length := by
    have := seqOpt_length _ css hcss
    simpa using this
  have hj2 : j < (runs.map (fun r => runCells r i)).length := by
    simpa using hj
  have hcell := seqOpt_getD ([] : List Nat) _ css hcss j hj2
  have hmapget2 : (runs.map (fun r => runCells r i)).getD j none
      = runCells (runs.getD j []) i := by
    rw [List.getD_eq_getElem _ _ hj2, List.getElem_map,
      List.getD_eq_getElem _ _ hj]
  rw [hmapget2] at hcell
  have hchunk : ((css.flatten.drop (5 * j)).take 5) = css.getD j [] := by
    apply flatten_take_chunk 5 css j ?_ (by omega)
    intro l hl
    have := seqOpt_mem _ css hcss l hl
    obtain ⟨r, -, hr⟩ := List.mem_map.mp this
    exact runCells_length r i l hr
  refine ⟨rows, hrows, hlenrows, rfl,
    csvHeader_getD runs.length j sk hj hsk, ?_, ?_, ?_, css.getD j [],
    hcell, ?_⟩ <;> rw [← hrowval]
  exact hchunk

/-- A throwaway default model used as the `getD` fallback. -/
def dfltModel : NetworkModel :=
  NetworkModel.init
    { adjOf := fun _ _ _ => []
      drawsOf := fun _ _ _ _ => 0
      initAcuteOf := fun _ _ _ => false
      coveredOf := fun _ _ _ => false
      par := { pTransAcute := 0, pTransChronic := 0, pTransAids := 0,
               prepEfficacy := 0, acuteDwell := 0, chronicDwell := 0,
               aidsDwell := 0 } }
    none 0 0 0 "" 0

/-- C3: `create_models` builds `iterations` models; every one receives the
same network (topology) seed — hence the same oracle-determined topology —
and model `i` receives interaction seed `seed + i` when the use-seed
checkbox is set, `None` (fully random) otherwise. -/
theorem c3_ensemble_seeds (o : Oracles) (st : Settings) (i : Nat)
    (hi : i < (create_models o st).length) :
    ((create_models o st).getD i dfltModel).network_seed = st.network_seed
    ∧ ((create_models o st).getD i dfltModel).adj
        = o.adjOf st.network_seed st.num_nodes
    ∧ ((create_models o st).getD i dfltModel).seed
        = (if st.use_seed then some (st.seed + (i : Int)) else none)
    ∧ (create_models o st).length = st.iterations := by
  have hlen : (create_models o st).length = st.iterations := by
    unfold create_models
    simp
  rw [List.getD_eq_getElem _ _ hi]
  unfold create_models
  rw [List.getElem_map, List.getElem_range]
  exact ⟨rfl, rfl, rfl, hlen⟩

/-- Concrete settings used by the witnesses. -/
def settings0 : Settings :=
  { defaultSettings "standard" with
      use_seed := true, iterations := 3, num_nodes := 4, max_t := 5 }

theorem c3_ensemble_seeds_witness :
    1 < (create_models oracle0 settings0).length
    ∧ (((create_models oracle0 settings0).getD 1 dfltModel).network_seed
          = settings0.network_seed
      ∧ ((create_models oracle0 settings0).getD 1 dfltModel).adj
          = oracle0.adjOf settings0.network_seed settings0.num_nodes
      ∧ ((create_models oracle0 settings0).getD 1 dfltModel).seed
          = (if settings0.use_seed then some (settings0.seed + (1 : Int))
             else none)
      ∧ (create_models oracle0 settings0).length = settings0.iterations) :=
  ⟨by decide, c3_ensemble_seeds oracle0 settings0 1 (by decide)⟩

/-- C4: with the week counter at or above the max-timesteps ceiling, both
`step_once` and `tick` return immediately: no model is stepped and the
whole session state (week counter, models, recorded histories) is
unchanged. -/
theorem c4_step_ceiling_noop (flags : Nat → Bool)
    (max_t steps_per_update : Nat) (s : Sim) (h : max_t ≤ s.t) :
    step_once max_t s = s ∧ tick flags max_t steps_per_update s = s := by
  constructor
  · unfold step_once
    rw [if_pos h]
  · unfold tick
    rw [if_pos (Or.inr h)]

/-- A concrete session state used by the witnesses. -/
def sim0 : Sim :=
  { t := 7
    models := [NetworkModel.init oracle0 none 67 3 (11/100) "standard" 0]
    running := true }

theorem c4_step_ceiling_noop_witness :
    5 ≤ sim0.t
    ∧ (step_once 5 sim0 = sim0 ∧ tick (fun _ => true) 5 10 sim0 = sim0) :=
  ⟨by decide, c4_step_ceiling_noop (fun _ => true) 5 10 sim0 (by decide)⟩

theorem tickLoop_spec (flags : Nat → Bool) :
    ∀ steps k s, (tickLoop flags steps k s).models
        = stepAll^[(tickLoop flags steps k s).t - s.t] s.models
      ∧ s.t ≤ (tickLoop flags steps k s).t
      ∧ (tickLoop flags steps k s).t ≤ s.t + steps := by
  intro steps
  induction steps with
  | zero => intro k s; simp [tickLoop]
  | succ st ih =>
      intro k s
      simp only [tickLoop]
      split
      · obtain ⟨h1, h2, h3⟩ := ih (k + 1)
          { t := s.t + 1, models := stepAll s.models, running := flags k }

        refine ⟨?_, by simp at h2 ⊢; omega, by simp at h3 ⊢; omega⟩
        rw [h1]
        simp only
        have harith : (tickLoop flags st (k + 1)
            { t := s.t + 1, models := stepAll s.models,
              running := flags k }).t - s.t
            = ((tickLoop flags st (k + 1)
                { t := s.t + 1, models := stepAll s.models,
                  running := flags k }).t - (s.t + 1)) + 1 := by
          simp only at h2
          omega
        rw [harith, Function.iterate_succ_apply]
      · exact ⟨by simp [Function.iterate_one], by simp, by simp⟩

/-- C5: the animation loop advances all runs in lock-step — after any
`tick`, the models are exactly a whole number of full `for m in models:
m.step()` sweeps ahead, that number being precisely the advance of the week
counter (so a pause or cancellation, observed only at the end-of-iteration
boundary check, can never leave some models a step ahead of others) — and
the week counter never exceeds the max-timesteps ceiling. -/
theorem c5_lockstep (flags : Nat → Bool) (max_t steps_per_update : Nat)
    (s : Sim) (h : s.t ≤ max_t) :
    (tick flags max_t steps_per_update s).models
      = stepAll^[(tick flags max_t steps_per_update s).t - s.t] s.models
    ∧ (tick flags max_t steps_per_update s).t ≤ max_t
    ∧ s.t ≤ (tick flags max_t steps_per_update s).t := by
  unfold tick
  split
  · exact ⟨by simp, h, le_rfl⟩
  · obtain ⟨h1, h2, h3⟩ :=
      tickLoop_spec flags (min (max 1 steps_per_update) (max_t - s.t)) 0 s
    refine ⟨h1, ?_, h2⟩
    have hmin : min (max 1 steps_per_update) (max_t - s.t) ≤ max_t - s.t :=
      Nat.min_le_right _ _
    omega

theorem c5_lockstep_witness :
    sim0.t ≤ 9
    ∧ ((tick (fun _ => true) 9 10 sim0).models
        = stepAll^[(tick (fun _ => true) 9 10 sim0).t - sim0.t] sim0.models
      ∧ (tick (fun _ => true) 9 10 sim0).t ≤ 9
      ∧ sim0.t ≤ (tick (fun _ => true) 9 10 sim0).t) :=
  ⟨by decide, c5_lockstep (fun _ => true) 9 10 sim0 (by decide)⟩

/-- All models of the session have recorded exactly `t + 1` snapshots,
i.e. every run has been stepped exactly `t` times since its creation. -/
def EnsembleSync (s : Sim) : Prop :=
  ∀ m ∈ s.models, m.states_per_time.length = s.t + 1

theorem inv_stepAll (t2 : Nat) (ms : List NetworkModel)
    (h : ∀ m ∈ ms, m.states_per_time.length = t2 + 1) :
    ∀ m ∈ stepAll ms, m.states_per_time.length = t2 + 2 := by
  intro m hm
  obtain ⟨m0, hm0, rfl⟩ := List.mem_map.mp hm
  rw [step_spt]
  simp [h m0 hm0]

theorem inv_create (o : Oracles) (st : Settings) :
    ∀ m ∈ create_models o st, m.states_per_time.length = 1 := by
  intro m hm
  unfold create_models at hm
  obtain ⟨i, -, rfl⟩ := List.mem_map.mp hm
  simp [NetworkModel.init]

theorem step_once_inv (max_t : Nat) (s : Sim) (h : EnsembleSync s) :
    EnsembleSync (step_once max_t s) := by
  unfold step_once
  split
  · exact h
  · exact inv_stepAll s.t s.models h

theorem tickLoop_inv (flags : Nat → Bool) :
    ∀ steps k s, EnsembleSync s → EnsembleSync (tickLoop flags steps k s) := by
  intro steps
  induction steps with
  | zero => intro k s h; exact h
  | succ st ih =>
      intro k s h
      have h2 := inv_stepAll s.t s.models h
      simp only [tickLoop]
      split
      · exact ih (k + 1) (Sim.mk (s.t + 1) (stepAll s.models) (flags k)) h2
      · exact h2

theorem tick_inv (flags : Nat → Bool) (max_t steps_per_update : Nat)
    (s : Sim) (h : EnsembleSync s) :
    EnsembleSync (tick flags max_t steps_per_update s) := by
  unfold tick
  split
  · exact h
  · exact tickLoop_inv flags _ 0 s h

theorem runWeeks_inv (max_t : Nat) (s : Sim) (h : EnsembleSync s) :
    EnsembleSync (runWeeks max_t s) := by
  suffices H : ∀ fuel s2, max_t - Sim.t s2 ≤ fuel → EnsembleSync s2 →
      EnsembleSync (runWeeks max_t s2) from H (max_t - s.t) s le_rfl h
  intro fuel
  induction fuel with
  | zero =>
      intro s2 hle hinv
      unfold runWeeks
      rw [if_neg (by omega)]
      exact hinv
  | succ f ih =>
      intro s2 hle hinv
      unfold runWeeks
      split
      · rename_i hlt
        apply ih
        · change max_t - (s2.t + 1) ≤ f
          omega
        · exact inv_stepAll s2.t s2.models hinv
      · exact hinv

theorem batchJob_inv (o : Oracles) (st : Settings) (s : Sim) :
    EnsembleSync (batchJob o st s) := by
  apply runWeeks_inv
  intro m hm
  have := inv_create o st m hm
  simpa using this

theorem foldl_sync {β : Type} (f : Sim → β → Sim)
    (hf : ∀ s b, EnsembleSync (f s b)) :
    ∀ (l : List β) (s : Sim), EnsembleSync s → EnsembleSync (l.foldl f s) := by
  intro l
  induction l with
  | nil => intro s h; exact h
  | cons b rest ih => intro s h; exact ih (f s b) (hf s b)

theorem batch_export_inv (o : Oracles) (raises : Settings → Bool)
    (st : Settings) (s : Sim) (h : EnsembleSync s)
    (hok : ∀ st2, raises st2 = false) :
    EnsembleSync (batch_export o raises st s) := by
  unfold batch_export
  apply foldl_sync
  · intro s2 job
    dsimp only
    rw [hok]
    simp only [Bool.false_eq_true, if_false]
    exact batchJob_inv o _ s2
  · exact h

/-- C10 (amended): every mutation path of the session — single step,
animation tick, batch job loop, apply, reset — preserves the invariant that
every model of the current ensemble has recorded exactly `t + 1` snapshots
(i.e. has been stepped exactly `t` times since the ensemble was created,
`t` the global week counter), provided no batch job's model construction
raises a caught `ValueError`; a failing batch job instead leaves `t = 0`
with the previous ensemble's histories (see the counterexample). -/
theorem c10_mutation_paths_sync (o : Oracles) (st : Settings) (mode : String)
    (flags : Nat → Bool) (max_t steps_per_update : Nat) (s : Sim)
    (raises : Settings → Bool) (h : EnsembleSync s)
    (hok : ∀ st2, raises st2 = false) :
    EnsembleSync (step_once max_t s)
    ∧ EnsembleSync (tick flags max_t steps_per_update s)
    ∧ EnsembleSync (apply_settings o st s)
    ∧ EnsembleSync (reset_model o mode s)
    ∧ EnsembleSync (batch_export o raises st s) := by
  refine ⟨step_once_inv max_t s h, tick_inv flags max_t steps_per_update s h,
    ?_, ?_, batch_export_inv o raises st s h hok⟩
  · intro m hm
    have := inv_create o st m hm
    simpa using this
  · intro m hm
    have := inv_create o (defaultSettings mode) m hm
    simpa using this

/-- A session state at week 0 whose single model was just created. -/
def sim1 : Sim :=
  { t := 0
    models := [NetworkModel.init oracle0 none 67 3 (11/100) "standard" 0]
    running := true }

theorem sync_sim1 : EnsembleSync sim1 := by
  intro m hm
  simp only [sim1, List.mem_singleton] at hm
  subst hm
  simp [NetworkModel.init, sim1]

theorem c10_mutation_paths_sync_witness :
    EnsembleSync sim1
    ∧ (∀ st2 : Settings, (fun _ : Settings => false) st2 = false)
    ∧ (EnsembleSync (step_once 5 sim1)
      ∧ EnsembleSync (tick (fun _ => true) 5 10 sim1)
      ∧ EnsembleSync (apply_settings oracle0 settings0 sim1)
      ∧ EnsembleSync (reset_model oracle0 "standard" sim1)
      ∧ EnsembleSync (batch_export oracle0 (fun _ => false) settings0 sim1)) :=
  ⟨sync_sim1, fun _ => rfl,
   c10_mutation_paths_sync oracle0 settings0 "standard" (fun _ => true) 5 10
     sim1 (fun _ => false) sync_sim1 (fun _ => rfl)⟩

/-- When every job's model construction raises, each job only resets `t`
and the previous ensemble survives the whole batch. -/
theorem batch_export_all_fail (o : Oracles) (st : Settings) (s : Sim) :
    batch_export o (fun _ => true) st s = Sim.mk 0 s.models false := rfl

/-- A reachable session state one week into a freshly applied ensemble. -/
def sim2 : Sim := step_once 5 (apply_settings oracle0 settings0 sim1)

/-- C10 (counterexample): the claim as stated is false on the code — from
the reachable state `sim2` (every model has `t + 1 = 2` snapshots), a batch
export whose jobs' model construction raises a caught `ValueError` ends
with `t = 0` while the models keep their two-snapshot histories, so the
batch loop does not preserve the invariant. -/
theorem c10_mutation_paths_sync_counterexample :
    EnsembleSync sim2
    ∧ ¬ EnsembleSync (batch_export oracle0 (fun _ => true) settings0 sim2) := by
  constructor
  · apply step_once_inv
    intro m hm
    have := inv_create oracle0 settings0 m hm
    simpa using this
  · intro hsync
    rw [batch_export_all_fail] at hsync
    have hlen3 : (create_models oracle0 settings0).length = 3 := by
      unfold create_models
      simp [settings0, defaultSettings]
    have h0 : 0 < (create_models oracle0 settings0).length := by omega
    have hm1 : (create_models oracle0 settings0)[0] ∈
        create_models oracle0 settings0 := List.getElem_mem h0
    have hm1len : ((create_models oracle0 settings0)[0]).states_per_time.length
        = 1 := inv_create oracle0 settings0 _ hm1
    have hstep : ((create_models oracle0 settings0)[0]).step ∈
        stepAll (create_models oracle0 settings0) :=
      List.mem_map_of_mem NetworkModel.step hm1
    have h2 : (((create_models oracle0 settings0)[0]).step).states_per_time.length
        = 2 := by
      rw [step_spt]
      simp [hm1len]
    have hsm : ((create_models oracle0 settings0)[0]).step ∈
        (Sim.mk 0 sim2.models false).models := hstep
    have h3 : (((create_models oracle0 settings0)[0]).step).states_per_time.length
        = 0 + 1 := hsync _ hsm
    omega

/-- C6: when every exception a batch job raises is a `ValueError`
(configuration error), the batch loop catches each one, marks the job
skipped, and still processes every job in order — the batch never aborts
and a failing job never swallows the jobs after it. -/
theorem c6_batch_skips (act : String → Rat → Sim → Sim × Option PyExn)
    (jobs : List (String × Rat)) (s : Sim)
    (h : ∀ m p s2 e, (act m p s2).2 ≠ some (PyExn.other e)) :
    ∃ sf log, processJobs act jobs s = some (sf, log)
      ∧ log.map (fun x => (x.1, x.2.1)) = jobs := by
  induction jobs generalizing s with
  | nil => exact ⟨s, [], rfl, rfl⟩
  | cons job rest ih =>
      obtain ⟨m, p⟩ := job
      rcases hres : (act m p { s with t := 0 }).2 with - | exn
      · obtain ⟨sf, log, h1, h2⟩ := ih ((act m p { s with t := 0 }).1)
        refine ⟨sf, (m, p, true) :: log, ?_, by simp [h2]⟩
        simp only [processJobs]
        rw [hres, h1]
        rfl
      · cases exn with
        | valueError msg =>
            obtain ⟨sf, log, h1, h2⟩ := ih ((act m p { s with t := 0 }).1)
            refine ⟨sf, (m, p, false) :: log, ?_, by simp [h2]⟩
            simp only [processJobs]
            rw [hres, h1]
            rfl
        | other msg => exact absurd hres (h m p { s with t := 0 } msg)

/-- A concrete job action for the witness: the job for mode "bad" raises a
`ValueError`, every other job succeeds. -/
def act0 (m : String) (_p : Rat) (s : Sim) : Sim × Option PyExn :=
  (s, if m == "bad" then some (PyExn.valueError "config") else none)

theorem c6_batch_skips_witness :
    (∀ m p s2 e, (act0 m p s2).2 ≠ some (PyExn.other e))
    ∧ ∃ sf log,
        processJobs act0 [("standard", 1/10), ("bad", 2/10), ("standard", 3/10)]
          sim0 = some (sf, log)
        ∧ log.map (fun x => (x.1, x.2.1))
            = [("standard", 1/10), ("bad", 2/10), ("standard", 3/10)] :=
  ⟨by intro m p s2 e; simp only [act0]; split <;> simp,
   c6_batch_skips act0 [("standard", 1/10), ("bad", 2/10), ("standard", 3/10)]
     sim0 (by intro m p s2 e; simp only [act0]; split <;> simp)⟩

/-- The filename splits as stem, then timestamp, then extension. -/
theorem csvFilename_split (mode : String) (prep : Rat) (max_week : Nat)
    (nodes net_seed iters : Int) (timestamp : String) :
    csvFilename mode prep max_week nodes net_seed iters timestamp
      = csvStem mode prep max_week nodes net_seed iters ++ timestamp ++ ".csv" :=
  rfl

/-- The stem of the filename a batch job exports. -/
def jobStem (job : String × Rat) : String :=
  csvStem job.1 job.2 batchMaxT (batchNumNodes : Int) batchNetworkSeed
    (batchIterations : Int)

/-- The ten filename stems of the batch jobs, fully evaluated. -/
def stemLits : List String :=
  ["standard_prep10_weeks520_nodes1000_netseed67_iters50_RAW__",
   "standard_prep20_weeks520_nodes1000_netseed67_iters50_RAW__",
   "standard_prep30_weeks520_nodes1000_netseed67_iters50_RAW__",
   "standard_prep40_weeks520_nodes1000_netseed67_iters50_RAW__",
   "standard_prep50_weeks520_nodes1000_netseed67_iters50_RAW__",
   "standard_prep60_weeks520_nodes1000_netseed67_iters50_RAW__",
   "standard_prep70_weeks520_nodes1000_netseed67_iters50_RAW__",
   "standard_prep80_weeks520_nodes1000_netseed67_iters50_RAW__",
   "standard_prep90_weeks520_nodes1000_netseed67_iters50_RAW__",
   "standard_prep100_weeks520_nodes1000_netseed67_iters50_RAW__"]

theorem batchStems_eq : batchJobs.map jobStem = stemLits := by
  have s1 : jobStem ("standard", (1:Rat)/10)
      = "standard_prep10_weeks520_nodes1000_netseed67_iters50_RAW__" := by
    unfold jobStem csvStem
    norm_num [pyInt]
    decide
  have s2 : jobStem ("standard", (2:Rat)/10)
      = "standard_prep20_weeks520_nodes1000_netseed67_iters50_RAW__" := by
    unfold jobStem csvStem
    norm_num [pyInt]
    decide
  have s3 : jobStem ("standard", (3:Rat)/10)
      = "standard_prep30_weeks520_nodes1000_netseed67_iters50_RAW__" := by
    unfold jobStem csvStem
    norm_num [pyInt]
    decide
  have s4 : jobStem ("standard", (4:Rat)/10)
      = "standard_prep40_weeks520_nodes1000_netseed67_iters50_RAW__" := by
    unfold jobStem csvStem
    norm_num [pyInt]
    decide
  have s5 : jobStem ("standard", (5:Rat)/10)
      = "standard_prep50_weeks520_nodes1000_netseed67_iters50_RAW__" := by
    unfold jobStem csvStem
    norm_num [pyInt]
    decide
  have s6 : jobStem ("standard", (6:Rat)/10)
      = "standard_prep60_weeks520_nodes1000_netseed67_iters50_RAW__" := by
    unfold jobStem csvStem
    norm_num [pyInt]
    decide
  have s7 : jobStem ("standard", (7:Rat)/10)
      = "standard_prep70_weeks520_nodes1000_netseed67_iters50_RAW__" := by
    unfold jobStem csvStem
    norm_num [pyInt]
    decide
  have s8 : jobStem ("standard", (8:Rat)/10)
      = "standard_prep80_weeks520_nodes1000_netseed67_iters50_RAW__" := by
    unfold jobStem csvStem
    norm_num [pyInt]
    decide
  have s9 : jobStem ("standard", (9:Rat)/10)
      = "standard_prep90_weeks520_nodes1000_netseed67_iters50_RAW__" := by
    unfold jobStem csvStem
    norm_num [pyInt]
    decide
  have s10 : jobStem ("standard", (1:Rat))
      = "standard_prep100_weeks520_nodes1000_netseed67_iters50_RAW__" := by
    unfold jobStem csvStem
    norm_num [pyInt]
    decide
  show List.map jobStem
    [("standard", (1:Rat)/10), ("standard", (2:Rat)/10),
     ("standard", (3:Rat)/10), ("standard", (4:Rat)/10),
     ("standard", (5:Rat)/10), ("standard", (6:Rat)/10),
     ("standard", (7:Rat)/10), ("standard", (8:Rat)/10),
     ("standard", (9:Rat)/10), ("standard", (1:Rat))] = stemLits
  simp only [List.map_cons, List.map_nil]
  rw [s1, s2, s3, s4, s5, s6, s7, s8, s9, s10]
  rfl

theorem getD_map_eq {α β : Type} (f : α → β) (l : List α) (i : Nat) (d : α)
    (hi : i < l.length) : (l.map f).getD i (f d) = f (l.getD i d) := by
  rw [List.getD_eq_getElem _ _ (by simpa using hi),
    List.getD_eq_getElem _ _ hi, List.getElem_map]

theorem jobStems_distinct :
    ∀ i < 10, ∀ j < 10, i ≠ j →
      jobStem (batchJobs.getD i ("", 0)) ≠ jobStem (batchJobs.getD j ("", 0)) := by
  have hlen : batchJobs.length = 10 := by decide
  have hlen2 : stemLits.length = 10 := by decide
  have hlits : ∀ i < 10, ∀ j < 10, i ≠ j →
      stemLits.getD i "" ≠ stemLits.getD j "" := by decide
  intro i hi j hj hij
  have gi := getD_map_eq jobStem batchJobs i ("", 0) (by omega)
  have gj := getD_map_eq jobStem batchJobs j ("", 0) (by omega)
  rw [batchStems_eq] at gi gj
  have di : stemLits.getD i (jobStem ("", 0)) = stemLits.getD i "" := by
    rw [List.getD_eq_getElem _ _ (by omega), List.getD_eq_getElem _ _ (by omega)]
  have dj : stemLits.getD j (jobStem ("", 0)) = stemLits.getD j "" := by
    rw [List.getD_eq_getElem _ _ (by omega), List.getD_eq_getElem _ _ (by omega)]
  rw [← gi, ← gj, di, dj]
  exact hlits i hi j hj hij

theorem runWeeks_t (max_t : Nat) (s : Sim) (h : s.t ≤ max_t) :
    (runWeeks max_t s).t = max_t := by
  suffices H : ∀ fuel s2, max_t - Sim.t s2 ≤ fuel → Sim.t s2 ≤ max_t →
      (runWeeks max_t s2).t = max_t from H (max_t - s.t) s le_rfl h
  intro fuel
  induction fuel with
  | zero =>
      intro s2 hle h2
      unfold runWeeks
      rw [if_neg (by omega)]
      omega
  | succ f ih =>
      intro s2 hle h2
      unfold runWeeks
      split
      · rename_i hlt
        apply ih
        · change max_t - (s2.t + 1) ≤ f
          omega
        · change s2.t + 1 ≤ max_t
          omega
      · rename_i hge
        omega

/-- C7: the exported filename encodes mode, prep percentage, weeks (the
week counter equals `max_t` at export time inside a batch job), nodes,
network seed, iteration count and a timestamp, and any two distinct batch
jobs produce different filenames — for any timestamps of equal length — so
no batch export overwrites another. -/
theorem c7_unique_filenames (i j : Nat) (ts1 ts2 : String)
    (o : Oracles) (st : Settings) (s : Sim)
    (hi : i < batchJobs.length) (hj : j < batchJobs.length) (hij : i ≠ j)
    (hts : ts1.length = ts2.length) :
    batchFname (batchJobs.getD i ("", 0)) ts1
      ≠ batchFname (batchJobs.getD j ("", 0)) ts2
    ∧ (batchJob o st s).t = st.max_t := by
  constructor
  · intro heq
    have hsplit1 : batchFname (batchJobs.getD i ("", 0)) ts1
        = jobStem (batchJobs.getD i ("", 0)) ++ ts1 ++ ".csv" := rfl
    have hsplit2 : batchFname (batchJobs.getD j ("", 0)) ts2
        = jobStem (batchJobs.getD j ("", 0)) ++ ts2 ++ ".csv" := rfl
    rw [hsplit1, hsplit2] at heq
    have hdata := congrArg String.data heq
    simp only [String.data_append] at hdata
    rw [List.append_assoc, List.append_assoc] at hdata
    have hlen : (ts1.data ++ (".csv" : String).data).length
        = (ts2.data ++ (".csv" : String).data).length := by
      have h1 : ts1.data.length = ts1.length := rfl
      have h2 : ts2.data.length = ts2.length := rfl
      simp [h1, h2, hts]
    obtain ⟨hstem, -⟩ := List.append_inj' hdata hlen
    have hstem2 : jobStem (batchJobs.getD i ("", 0))
        = jobStem (batchJobs.getD j ("", 0)) := String.ext hstem
    have h10 : batchJobs.length = 10 := by decide
    exact jobStems_distinct i (by omega) j (by omega) hij hstem2
  · apply runWeeks_t
    change 0 ≤ st.max_t
    omega

theorem c7_unique_filenames_witness :
    0 < batchJobs.length ∧ 9 < batchJobs.length ∧ (0 : Nat) ≠ 9
    ∧ ("20260128_101939" : String).length = ("20260127_215617" : String).length
    ∧ (batchFname (batchJobs.getD 0 ("", 0)) "20260128_101939"
        ≠ batchFname (batchJobs.getD 9 ("", 0)) "20260127_215617"
      ∧ (batchJob oracle0 settings0 sim0).t = settings0.max_t) :=
  ⟨by decide, by decide, by decide, by decide,
   c7_unique_filenames 0 9 "20260128_101939" "20260127_215617" oracle0
     settings0 sim0 (by decide) (by decide) (by decide) (by decide)⟩

/-- On every nonempty sample, numpy's median is exactly the 0.5 linear
quantile. -/
theorem npMedian_eq_half (xs : List Rat) (hne : xs ≠ []) :
    npMedian xs = npQuantile (1/2) xs := by
  unfold npMedian npQuantile
  have hpos : 0 < xs.length := List.length_pos.mpr hne
  set s := xs.mergeSort (fun a b => decide (a ≤ b)) with hs
  set n := xs.length with hn
  rcases Nat.mod_two_eq_zero_or_one n with h2 | h2
  · obtain ⟨m, hm⟩ : ∃ m, n = 2 * m := ⟨n / 2, by omega⟩
    have hm1 : 1 ≤ m := by omega
    rw [if_neg (by omega)]
    have hh : (1:Rat)/2 * ((n : Rat) - 1) = (m : Rat) - 1/2 := by
      rw [hm]; push_cast; ring
    rw [hh]
    have hfl : Int.floor ((m : Rat) - 1/2) = (m : Int) - 1 := by
      rw [Int.floor_eq_iff]
      constructor
      · push_cast
        have hc : (1:Rat) ≤ (m:Rat) := by exact_mod_cast hm1
        linarith
      · push_cast
        linarith
    rw [hfl]
    have htn : ((m : Int) - 1).toNat = m - 1 := by omega
    rw [htn]
    have hhi : min (m - 1 + 1) (n - 1) = m := by omega
    rw [hhi]
    have h1 : n / 2 = m := by omega
    rw [h1]
    push_cast
    ring
  · obtain ⟨m, hm⟩ : ∃ m, n = 2 * m + 1 := ⟨n / 2, by omega⟩
    rw [if_pos h2]
    have hh : (1:Rat)/2 * ((n : Rat) - 1) = (m : Rat) := by
      rw [hm]; push_cast; ring
    rw [hh, Int.floor_natCast]
    have htn : ((m : Int)).toNat = m := Int.toNat_ofNat m
    rw [htn]
    have hidx : (n - 1) / 2 = m := by omega
    rw [hidx]
    push_cast
    ring

theorem colValsOpt_length (runs : List (List (List (String × Nat))))
    (key : String) (vals : List (List Rat))
    (h : colValsOpt runs key = some vals) : vals.length = runs.length := by
  unfold colValsOpt at h
  have := seqOpt_length _ vals h
  simpa using this

/-- C8: what `plot_states` draws for a key is, per week, exactly the
0.5 quantile (median) line across runs and the interquartile band from the
0.25 quantile to the 0.75 quantile of the runs' counts; the computation
only reads the runs' histories. -/
theorem c8_median_iqr (runs : List (List (List (String × Nat))))
    (key : String) (vals : List (List Rat)) (hne : runs ≠ [])
    (hv : colValsOpt runs key = some vals) :
    plotKey runs key = some
      ((List.range (minLen runs)).map (fun w => npQuantile (1/2) (colAt vals w)),
       (List.range (minLen runs)).map (fun w => npQuantile (1/4) (colAt vals w)),
       (List.range (minLen runs)).map (fun w => npQuantile (3/4) (colAt vals w))) := by
  unfold plotKey
  rw [hv]
  simp only [Option.map_some']
  have hlen : vals.length = runs.length := colValsOpt_length runs key vals hv
  have hcol : ∀ w, colAt vals w ≠ [] := by
    intro w
    unfold colAt
    simp only [ne_eq, List.map_eq_nil_iff]
    intro hnil
    rw [hnil] at hlen
    exact hne (List.eq_nil_of_length_eq_zero hlen.symm)
  have hmed : List.map (fun w => npMedian (colAt vals w))
        (List.range (minLen runs))
      = List.map (fun w => npQuantile (1/2) (colAt vals w))
        (List.range (minLen runs)) :=
    List.map_congr_left (fun w _ => npMedian_eq_half (colAt vals w) (hcol w))
  rw [hmed]

theorem c8_median_iqr_witness :
    ([run0] : List (List (List (String × Nat)))) ≠ []
    ∧ colValsOpt [run0] "susceptible"
        = some [[((2:Nat) : Rat), ((1:Nat) : Rat), ((1:Nat) : Rat)]]
    ∧ plotKey [run0] "susceptible" = some
      ((List.range (minLen [run0])).map (fun w => npQuantile (1/2)
        (colAt [[((2:Nat) : Rat), ((1:Nat) : Rat), ((1:Nat) : Rat)]] w)),
       (List.range (minLen [run0])).map (fun w => npQuantile (1/4)
        (colAt [[((2:Nat) : Rat), ((1:Nat) : Rat), ((1:Nat) : Rat)]] w)),
       (List.range (minLen [run0])).map (fun w => npQuantile (3/4)
        (colAt [[((2:Nat) : Rat), ((1:Nat) : Rat), ((1:Nat) : Rat)]] w))) :=
  ⟨by simp, by rfl,
   c8_median_iqr [run0] "susceptible"
     [[((2:Nat) : Rat), ((1:Nat) : Rat), ((1:Nat) : Rat)]] (by simp) (by rfl)⟩

theorem c2_csv_layout_witness :
    1 ≤ 2 ∧ 0 < ([run0] : List (List (List (String × Nat)))).length ∧ 2 < 5
    ∧ (∃ rows, exportRows [run0] "standard" (1/10) 2 = some rows
      ∧ rows.length = 2 + 1
      ∧ (csvHeader [run0].length).take 3 = ["week", "mode", "prep"]
      ∧ (csvHeader [run0].length).getD (3 + (5 * 0 + 2)) ""
          = KEYS.getD 2 "" ++ "_" ++ toString (0 + 1)
      ∧ (rows.getD 1 ⟨0, "", 0, []⟩).week = 1
      ∧ (rows.getD 1 ⟨0, "", 0, []⟩).mode = "standard"
      ∧ (rows.getD 1 ⟨0, "", 0, []⟩).prep = 1/10
      ∧ ∃ cs, runCells ([run0].getD 0 []) 1 = some cs
          ∧ (((rows.getD 1 ⟨0, "", 0, []⟩).counts.drop (5 * 0)).take 5) = cs) :=
  ⟨by decide, by decide, by decide,
   c2_csv_layout [run0] "standard" (1/10) 2 1 0 2 (by decide) (by decide)
     (by decide)⟩

end HIVSim
